import Mathlib

/-!
Shallow embedding of the probe-session engine of `net-tools` (package `pkg`,
the ping WebSocket handler) and proofs of its specification claims.

Conventions of the embedding:
* Go `int` is modelled as `Int`; Go strings as Lean `String`.
* Optional JSON fields (`*T` pointers, `nil` = absent) are `Option`.
* Fallible Go functions returning `error` are modelled with `Except String`,
  the error string being the Go format string.
* `float64` latency values are never computed with by the session logic
  (they are produced by the opaque measurement probe and passed through),
  so latency is modelled as an opaque integer payload.
* Effects of one tick of the session loop (the outcome of the measurement
  probe, of the WebSocket write, of the liveness control probe, and the
  wall-clock stamp) are supplied as an environment, one `TickEnv` per
  ticker firing.
-/

namespace NetTools

/-- Default values for ping options (the `const` block of the source). -/
def defaultCount : Int := 0
def defaultWait : Int := 1
def defaultTTL : Int := 64
def defaultPacketSize : Int := 56
def defaultTimeout : Int := 5
def defaultWaitTime : Int := 10
def defaultTOS : Int := 0
def defaultPreload : Int := 0
def defaultSweepMin : Int := 0
def defaultSweepMax : Int := 0
def defaultSweepIncr : Int := 0

/-- Structure `PingMessage`: the incoming ping request with optional fields. -/
structure PingMessage where
  Address : String
  Adaptive : Option Bool := none
  Audible : Option Bool := none
  Debug : Option Bool := none
  Flood : Option Bool := none
  Numeric : Option Bool := none
  Quiet : Option Bool := none
  Timestamp : Option Bool := none
  Verbose : Option Bool := none
  Count : Option Int := none
  SweepMaxSize : Option Int := none
  SweepMinSize : Option Int := none
  SweepIncrSize : Option Int := none
  Wait : Option Int := none
  Preload : Option Int := none
  Mask : Option String := none
  TTL : Option Int := none
  Pattern : Option String := none
  SourceAddr : Option String := none
  PacketSize : Option Int := none
  Timeout : Option Int := none
  WaitTime : Option Int := none
  TOS : Option Int := none
deriving Repr, DecidableEq

/-- Structure `PongMessage`: the ping response with latency information.
`Timestamp` is the wall-clock stamp taken at creation (opaque tick data);
`Latency` is the opaque measured value. -/
structure PongMessage where
  type : String
  Timestamp : Nat
  Bytes : Int
  Sequence : Int
  Address : String
  Latency : Int
  Success : Bool
deriving Repr, DecidableEq

/-- Structure `PingOptions`: the resolved ping options. -/
structure PingOptions where
  Count : Int
  Wait : Int
  TTL : Int
  PacketSize : Int
  Timeout : Int
  WaitTime : Int
  TOS : Int
  Preload : Int
  SweepMinSize : Int
  SweepMaxSize : Int
  SweepIncrSize : Int
  SourceAddr : String
  Pattern : String
  Mask : String
  IsAdaptive : Bool
  IsAudible : Bool
  IsDebug : Bool
  IsFlood : Bool
  IsNumeric : Bool
  IsQuiet : Bool
  HasTimestamp : Bool
  IsVerbose : Bool
deriving Repr, DecidableEq

/-- Helper `getOrDefault` for optional values (`nil` pointer → default). -/
def getOrDefault {T : Type} (value : Option T) (defaultValue : T) : T :=
  match value with
  | none => defaultValue
  | some v => v

/-- Function `validatePingOptions`: validates ping options, returning the first
failing rule's error, in source order.  The source's nested
`if SweepMaxSize > 0 { if .. ; if .. }` block is flattened into two
guarded checks, preserving order and guards. -/
def validatePingOptions (opts : PingOptions) : Except String Unit :=
  if opts.Count < 0 then .error "count cannot be negative"
  else if opts.Wait < 0 then .error "wait interval cannot be negative"
  else if opts.TTL ≤ 0 ∨ opts.TTL > 255 then .error "TTL must be between 1 and 255"
  else if opts.PacketSize < 0 then .error "packet size cannot be negative"
  else if opts.SweepMaxSize > 0 ∧ opts.SweepMinSize ≥ opts.SweepMaxSize then
    .error "sweep min size must be less than max size"
  else if opts.SweepMaxSize > 0 ∧ opts.SweepIncrSize ≤ 0 then
    .error "sweep increment size must be positive"
  else if opts.Timeout ≤ 0 then .error "timeout must be positive"
  else if opts.WaitTime ≤ 0 then .error "wait time must be positive"
  else if opts.TOS < 0 ∨ opts.TOS > 255 then .error "TOS must be between 0 and 255"
  else .ok ()

/-- The record construction at the head of `resolvePingOptions`: merge the
sparse message with the defaults, field by field, via `getOrDefault`. -/
def mergeDefaults (msg : PingMessage) : PingOptions :=
  { Count := getOrDefault msg.Count defaultCount
    Wait := getOrDefault msg.Wait defaultWait
    TTL := getOrDefault msg.TTL defaultTTL
    PacketSize := getOrDefault msg.PacketSize defaultPacketSize
    Timeout := getOrDefault msg.Timeout defaultTimeout
    WaitTime := getOrDefault msg.WaitTime defaultWaitTime
    TOS := getOrDefault msg.TOS defaultTOS
    SweepMinSize := getOrDefault msg.SweepMinSize defaultSweepMin
    SweepMaxSize := getOrDefault msg.SweepMaxSize defaultSweepMax
    SweepIncrSize := getOrDefault msg.SweepIncrSize defaultSweepIncr
    Preload := getOrDefault msg.Preload defaultPreload
    SourceAddr := getOrDefault msg.SourceAddr ""
    Pattern := getOrDefault msg.Pattern ""
    Mask := getOrDefault msg.Mask ""
    IsAdaptive := getOrDefault msg.Adaptive false
    IsAudible := getOrDefault msg.Audible false
    IsDebug := getOrDefault msg.Debug false
    IsFlood := getOrDefault msg.Flood false
    IsNumeric := getOrDefault msg.Numeric false
    IsQuiet := getOrDefault msg.Quiet false
    HasTimestamp := getOrDefault msg.Timestamp false
    IsVerbose := getOrDefault msg.Verbose false }

/-- Function `resolvePingOptions`: converts a `PingMessage` to `PingOptions` with
defaults, validates, then applies the flood override (`opts.Wait = 1`)
after validation succeeded. -/
def resolvePingOptions (msg : PingMessage) : Except String PingOptions :=
  let opts := mergeDefaults msg
  match validatePingOptions opts with
  | .error e => .error ("invalid ping options: " ++ e)
  | .ok _ =>
    .ok (if opts.IsFlood then { opts with Wait := 1 } else opts)

/-- Byte-level `strings.HasPrefix` of Go, on the character lists of the
two strings. -/
def goStartsWith (s pre : String) : Bool :=
  pre.data.isPrefixOf s.data

/-- Function `formatAddress`: ensure the address has the correct protocol scheme. -/
def formatAddress (addr : String) : String :=
  if ¬ goStartsWith addr "http://" ∧ ¬ goStartsWith addr "https://" then
    "http://" ++ addr
  else
    addr

/-- Function `createPongMessage` builds a `PongMessage`; `now` is the wall-clock
stamp the source takes with `time.Now()`. -/
def createPongMessage (now : Nat) (address : String) (sequence : Int)
    (latency : Int) (success : Bool) : PongMessage :=
  { type := "pong"
    Timestamp := now
    Bytes := defaultPacketSize
    Sequence := sequence
    Address := address
    Latency := latency
    Success := success }

/-- The per-tick packet-size computation of the session loop
(`currentPacketSize` in `PingHandler`), at 1-based tick number `sequence`.
`Int.tmod` is Go's truncated `%`. -/
def currentPacketSize (opts : PingOptions) (sequence : Int) : Int :=
  if opts.SweepMaxSize > 0 then
    opts.SweepMinSize +
      Int.tmod ((sequence - 1) * opts.SweepIncrSize)
        (opts.SweepMaxSize - opts.SweepMinSize + 1)
  else
    opts.PacketSize

/-- The environment one ticker firing exposes the loop body to: the
measurement probe's outcome (`some latency` on success, `none` on error —
`measureLatency` returns `(0, err)` on failure), whether the WebSocket
write of the pong succeeds, whether the liveness control probe
(`checkConnection`) succeeds, and the wall-clock stamp. -/
structure TickEnv where
  now : Nat
  probe : Option Int
  writeOk : Bool
  liveOk : Bool
deriving Repr, DecidableEq

/-- How a session (or an observed finite portion of it) ends.
`stillRunning` means the supplied tick environment was exhausted with the
loop still alive (an unbounded session observed for finitely many ticks). -/
inductive SessionEnd where
  | readError
  | invalidOption
  | countExhausted
  | writeError
  | peerUnreachable
  | stillRunning
deriving Repr, DecidableEq

/-- Observable result of running a session: the pong reports actually
written to the channel, how it ended, how many measurement probes the
loop performed, and how many liveness checks it performed. -/
structure RunResult where
  sent : List PongMessage
  outcome : SessionEnd
  probes : Nat
  checks : Nat
deriving Repr, DecidableEq

/-- The ticker loop of `PingHandler`, from loop entry with
sequence counter `sequence`, consuming one `TickEnv` per ticker firing.
Each iteration: break on count exhaustion before measuring; increment the
counter; compute the sweep-adjusted byte size; measure; build the pong
and stamp the byte size; unless quiet, write it (write failure ends the
session); unless flood, run the liveness check (failure ends the
session). -/
def runLoop (opts : PingOptions) (address : String) :
    List TickEnv → Int → RunResult
  | [], _ => ⟨[], .stillRunning, 0, 0⟩
  | e :: rest, sequence =>
    if opts.Count > 0 ∧ sequence ≥ opts.Count then
      ⟨[], .countExhausted, 0, 0⟩
    else
      let sequence' := sequence + 1
      let size := currentPacketSize opts sequence'
      let success := e.probe.isSome
      let latency := e.probe.getD 0
      let pong :=
        { createPongMessage e.now address (sequence' - 1) latency success with
            Bytes := size }
      if ¬ opts.IsQuiet ∧ ¬ e.writeOk then
        ⟨[], .writeError, 1, 0⟩
      else if ¬ opts.IsFlood ∧ ¬ e.liveOk then
        ⟨if opts.IsQuiet then [] else [pong], .peerUnreachable, 1, 1⟩
      else
        let r := runLoop opts address rest sequence'
        ⟨(if opts.IsQuiet then [] else [pong]) ++ r.sent, r.outcome,
          r.probes + 1, r.checks + (if opts.IsFlood then 0 else 1)⟩

/-- A whole session (`PingHandler` after the WebSocket upgrade): read one
configuration message (`none` = read failure), resolve options (failure
→ silent termination), normalize the address, run the tick loop from
sequence 0.  Preload probes are fire-and-forget warm-up goroutines that
never write a report and never touch the sequence counter, so they do
not appear in the observable `RunResult`. -/
def pingSession (readResult : Option PingMessage) (env : List TickEnv) :
    RunResult :=
  match readResult with
  | none => ⟨[], .readError, 0, 0⟩
  | some msg =>
    match resolvePingOptions msg with
    | .error _ => ⟨[], .invalidOption, 0, 0⟩
    | .ok opts => runLoop opts (formatAddress msg.Address) env 0

/-! ## Helper lemmas -/

/-- Characterization of validation success as the conjunction of the
spec's range rules. -/
theorem validate_ok_iff (o : PingOptions) :
    validatePingOptions o = Except.ok () ↔
      0 ≤ o.Count ∧ 0 ≤ o.Wait ∧ (0 < o.TTL ∧ o.TTL ≤ 255) ∧ 0 ≤ o.PacketSize ∧
      (0 < o.SweepMaxSize → o.SweepMinSize < o.SweepMaxSize ∧ 0 < o.SweepIncrSize) ∧
      0 < o.Timeout ∧ 0 < o.WaitTime ∧ (0 ≤ o.TOS ∧ o.TOS ≤ 255) := by
  unfold validatePingOptions
  split_ifs with h1 h2 h3 h4 h5 h6 h7 h8 h9 <;> simp_all <;> omega

/-- A scheme literally prepended to a string is recognized by
`goStartsWith`. -/
theorem goStartsWith_append (pre a : String) : goStartsWith (pre ++ a) pre = true := by
  simp [goStartsWith, List.isPrefixOf_iff_prefix]

/-! ## Claims about the option resolver and address normalization -/

/-- The all-defaults resolved option set. -/
def defaultResolvedOptions : PingOptions :=
  { Count := 0, Wait := 1, TTL := 64, PacketSize := 56, Timeout := 5
    WaitTime := 10, TOS := 0, Preload := 0
    SweepMinSize := 0, SweepMaxSize := 0, SweepIncrSize := 0
    SourceAddr := "", Pattern := "", Mask := ""
    IsAdaptive := false, IsAudible := false, IsDebug := false, IsFlood := false
    IsNumeric := false, IsQuiet := false, HasTimestamp := false, IsVerbose := false }

/-- C9: a configuration message in which every optional field is absent
resolves successfully to exactly the built-in defaults (count 0,
interval 1, TTL 64, packet size 56, timeout 5, wait time 10, TOS 0,
preload 0, sweep fields 0, empty strings, all flags false), and these
defaults themselves pass validation. -/
theorem C9_default_resolution :
    (∀ a : String, resolvePingOptions { Address := a } = Except.ok defaultResolvedOptions) ∧
    validatePingOptions defaultResolvedOptions = Except.ok () :=
  ⟨fun _ => rfl, rfl⟩

/-- C9 witness: the all-defaults resolution at a concrete address. -/
theorem C9_default_resolution_witness :
    resolvePingOptions { Address := "example.com" } =
      Except.ok defaultResolvedOptions ∧
    validatePingOptions defaultResolvedOptions = Except.ok () :=
  ⟨C9_default_resolution.1 "example.com", C9_default_resolution.2⟩

/-- C10: address normalization is idempotent; an address already carrying
an `http://` or `https://` scheme is returned unchanged, and any other
address gets `http://` prepended. -/
theorem C10_formatAddress :
    ∀ a : String,
      formatAddress (formatAddress a) = formatAddress a ∧
      (goStartsWith a "http://" = true ∨ goStartsWith a "https://" = true →
        formatAddress a = a) ∧
      (goStartsWith a "http://" = false → goStartsWith a "https://" = false →
        formatAddress a = "http://" ++ a) := by
  intro a
  by_cases h1 : goStartsWith a "http://" = true
  · exact ⟨by simp [formatAddress, h1], fun _ => by simp [formatAddress, h1],
      fun hf _ => by rw [h1] at hf; cases hf⟩
  · by_cases h2 : goStartsWith a "https://" = true
    · exact ⟨by simp [formatAddress, h2], fun _ => by simp [formatAddress, h2],
      fun _ hf => by rw [h2] at hf; cases hf⟩
    · have hfa : formatAddress a = "http://" ++ a := by
        simp [formatAddress, h1, h2]
      refine ⟨?_, fun h => by
          rcases h with h | h
          · exact absurd h h1
          · exact absurd h h2, fun _ _ => hfa⟩
      rw [hfa]
      simp [formatAddress, goStartsWith_append]

/-- C10 witness: concrete instantiations of the three conjuncts. -/
theorem C10_formatAddress_witness :
    formatAddress (formatAddress "example.com") = formatAddress "example.com" ∧
    formatAddress "https://a.b" = "https://a.b" ∧
    formatAddress "example.com" = "http://" ++ "example.com" :=
  ⟨(C10_formatAddress "example.com").1,
   (C10_formatAddress "https://a.b").2.1 (Or.inr (by decide)),
   (C10_formatAddress "example.com").2.2 (by decide) (by decide)⟩

/-- C3: whenever resolution succeeds with `flood = true`, the resolved
interval is the minimum tick unit 1, regardless of any supplied value;
moreover the override is applied only after validation succeeds: a
negative supplied interval still makes resolution fail even with
`flood = true` (the override never rescues an invalid interval). -/
theorem C3_flood_forces_interval :
    (∀ msg opts, resolvePingOptions msg = Except.ok opts → opts.IsFlood = true →
      opts.Wait = 1) ∧
    (∀ msg w, msg.Wait = some w → w < 0 →
      ∃ e, resolvePingOptions msg = Except.error e) := by
  constructor
  · intro msg opts h hf
    simp only [resolvePingOptions] at h
    rcases hv : validatePingOptions (mergeDefaults msg) with e | u
    · rw [hv] at h; cases h
    · rw [hv] at h
      simp only [Except.ok.injEq] at h
      subst h
      by_cases hfl : (mergeDefaults msg).IsFlood
      · simp [hfl]
      · rw [if_neg hfl] at hf ⊢
        exact absurd hf hfl
  · intro msg w hw hneg
    rcases hv : validatePingOptions (mergeDefaults msg) with e | u
    · exact ⟨"invalid ping options: " ++ e, by simp only [resolvePingOptions]; rw [hv]⟩
    · exfalso
      have : 0 ≤ (mergeDefaults msg).Wait := ((validate_ok_iff _).1 hv).2.1
      have hmw : (mergeDefaults msg).Wait = w := by
        simp [mergeDefaults, getOrDefault, hw]
      omega

/-- C3 witness: flood with an explicit interval 7 resolves to interval 1;
flood with interval -2 fails resolution. -/
theorem C3_flood_forces_interval_witness :
    ({ defaultResolvedOptions with IsFlood := true } : PingOptions).Wait = 1 ∧
    ∃ e, resolvePingOptions
        { Address := "a", Flood := some true, Wait := some (-2) } = Except.error e :=
  ⟨C3_flood_forces_interval.1
      { Address := "a", Flood := some true, Wait := some 7 }
      { defaultResolvedOptions with IsFlood := true } rfl rfl,
   C3_flood_forces_interval.2
      { Address := "a", Flood := some true, Wait := some (-2) } (-2) rfl (by decide)⟩

/-- C8: a session whose setup fails — the initial configuration read
fails, or option resolution fails — terminates with no report ever
written to the channel (silent closure). -/
theorem C8_silent_setup_failure :
    ∀ env : List TickEnv,
      pingSession none env = ⟨[], .readError, 0, 0⟩ ∧
      (∀ msg e, resolvePingOptions msg = Except.error e →
        pingSession (some msg) env = ⟨[], .invalidOption, 0, 0⟩) := by
  intro env
  refine ⟨rfl, fun msg e h => ?_⟩
  simp only [pingSession, h]

/-- C8 witness: the empty-environment session with a read failure, and
with an out-of-range TTL configuration. -/
theorem C8_silent_setup_failure_witness :
    pingSession none [] = ⟨[], .readError, 0, 0⟩ ∧
    pingSession (some { Address := "a", TTL := some 0 }) [] =
      ⟨[], .invalidOption, 0, 0⟩ :=
  ⟨(C8_silent_setup_failure []).1,
   (C8_silent_setup_failure []).2 { Address := "a", TTL := some 0 }
     ("invalid ping options: " ++ "TTL must be between 1 and 255") rfl⟩

/-! ## Session-loop lemmas -/

/-- The report one loop iteration builds when the counter is `s` at loop
entry (so the tick is 1-based number `s + 1`): sequence `s + 1 - 1`,
byte size sweep-adjusted for tick `s + 1`, success mirroring the probe. -/
def stepPong (opts : PingOptions) (addr : String) (e : TickEnv) (s : Int) :
    PongMessage :=
  { type := "pong"
    Timestamp := e.now
    Bytes := currentPacketSize opts (s + 1)
    Sequence := s + 1 - 1
    Address := addr
    Latency := e.probe.getD 0
    Success := e.probe.isSome }

@[simp] theorem stepPong_Sequence (opts : PingOptions) (addr : String)
    (e : TickEnv) (s : Int) : (stepPong opts addr e s).Sequence = s := by
  simp [stepPong]

@[simp] theorem stepPong_Success (opts : PingOptions) (addr : String)
    (e : TickEnv) (s : Int) : (stepPong opts addr e s).Success = e.probe.isSome :=
  rfl

@[simp] theorem stepPong_Bytes (opts : PingOptions) (addr : String)
    (e : TickEnv) (s : Int) :
    (stepPong opts addr e s).Bytes = currentPacketSize opts (s + 1) :=
  rfl

theorem runLoop_nil (opts : PingOptions) (addr : String) (s : Int) :
    runLoop opts addr [] s = ⟨[], .stillRunning, 0, 0⟩ :=
  rfl

theorem runLoop_break (opts : PingOptions) (addr : String) (e : TickEnv)
    (rest : List TickEnv) (s : Int) (h : opts.Count > 0 ∧ s ≥ opts.Count) :
    runLoop opts addr (e :: rest) s = ⟨[], .countExhausted, 0, 0⟩ := by
  simp [runLoop, h]

theorem runLoop_step (opts : PingOptions) (addr : String) (e : TickEnv)
    (rest : List TickEnv) (s : Int) (h : ¬ (opts.Count > 0 ∧ s ≥ opts.Count)) :
    runLoop opts addr (e :: rest) s =
      if ¬ opts.IsQuiet ∧ ¬ e.writeOk then ⟨[], .writeError, 1, 0⟩
      else if ¬ opts.IsFlood ∧ ¬ e.liveOk then
        ⟨if opts.IsQuiet then [] else [stepPong opts addr e s],
          .peerUnreachable, 1, 1⟩
      else
        ⟨(if opts.IsQuiet then [] else [stepPong opts addr e s]) ++
            (runLoop opts addr rest (s + 1)).sent,
          (runLoop opts addr rest (s + 1)).outcome,
          (runLoop opts addr rest (s + 1)).probes + 1,
          (runLoop opts addr rest (s + 1)).checks +
            (if opts.IsFlood then 0 else 1)⟩ := by
  conv_lhs => rw [runLoop]
  rw [if_neg h]
  rfl

/-- A fully successful run of the tick loop: starting at sequence `s`
with `count = s + n > 0` and `n + 1` all-good ticks available, the loop
emits the `n` reports with sequences `s, s+1, …, s+n-1`, performs
exactly `n` measurements, and then terminates count-exhausted on the
`(n+1)`-th ticker firing without measuring again. -/
theorem runLoop_allGood (opts : PingOptions) (addr : String)
    (hq : opts.IsQuiet = false) :
    ∀ (n s : Nat) (env : List TickEnv), opts.Count = (s : Int) + (n : Int) →
      0 < s + n → env.length = n + 1 →
      (∀ e ∈ env, e.probe.isSome = true ∧ e.writeOk = true ∧ e.liveOk = true) →
      (runLoop opts addr env (s : Int)).outcome = .countExhausted ∧
      (runLoop opts addr env (s : Int)).probes = n ∧
      (runLoop opts addr env (s : Int)).sent.map PongMessage.Sequence =
        (List.range n).map (fun (i : Nat) => (s : Int) + (i : Int)) := by
  intro n
  induction n with
  | zero =>
    intro s env hc hpos hlen hgood
    cases env with
    | nil => simp at hlen
    | cons e rest =>
      rw [runLoop_break opts addr e rest _ (by rw [hc]; push_cast; omega)]
      simp
  | succ n ih =>
    intro s env hc hpos hlen hgood
    cases env with
    | nil => simp at hlen
    | cons e rest =>
      have hrest : rest.length = n + 1 := by simpa using hlen
      have he := hgood e (List.mem_cons_self e rest)
      rw [runLoop_step opts addr e rest _ (by rw [hc]; push_cast; omega)]
      rw [if_neg (by simp [he.2.1]), if_neg (by simp [he.2.2]),
        if_neg (by simp [hq])]
      have hcast : ((s : Int)) + 1 = ((s + 1 : Nat) : Int) := by push_cast; ring
      have ihr := ih (s + 1) rest (by rw [hc]; push_cast; ring) (by omega) hrest
        (fun x hx => hgood x (List.mem_cons_of_mem e hx))
      rw [← hcast] at ihr
      refine ⟨ihr.1, by simp [ihr.2.1], ?_⟩
      simp only [List.singleton_append, List.map_cons, stepPong_Sequence,
        ihr.2.2, List.range_succ_eq_map, List.map_map, List.cons.injEq]
      refine ⟨by simp, ?_⟩
      exact List.map_congr_left (fun a _ => by
        simp only [Function.comp_apply]
        push_cast
        ring)

/-- A quiet, non-flood run with `count = s + n > 0` and all liveness
checks succeeding: no report is ever written, yet the loop still
performs `n` measurements and `n` liveness checks, then terminates
count-exhausted. -/
theorem runLoop_quiet (opts : PingOptions) (addr : String)
    (hq : opts.IsQuiet = true) (hf : opts.IsFlood = false) :
    ∀ (n s : Nat) (env : List TickEnv), opts.Count = (s : Int) + (n : Int) →
      0 < s + n → env.length = n + 1 →
      (∀ e ∈ env, e.liveOk = true) →
      runLoop opts addr env (s : Int) = ⟨[], .countExhausted, n, n⟩ := by
  intro n
  induction n with
  | zero =>
    intro s env hc hpos hlen hgood
    cases env with
    | nil => simp at hlen
    | cons e rest =>
      rw [runLoop_break opts addr e rest _ (by rw [hc]; push_cast; omega)]
  | succ n ih =>
    intro s env hc hpos hlen hgood
    cases env with
    | nil => simp at hlen
    | cons e rest =>
      have hrest : rest.length = n + 1 := by simpa using hlen
      have he := hgood e (List.mem_cons_self e rest)
      rw [runLoop_step opts addr e rest _ (by rw [hc]; push_cast; omega)]
      rw [if_neg (by simp [hq]), if_neg (by simp [he]), if_pos hq]
      have hcast : ((s : Int)) + 1 = ((s + 1 : Nat) : Int) := by push_cast; ring
      have ihr := ih (s + 1) rest (by rw [hc]; push_cast; ring) (by omega) hrest
        (fun x hx => hgood x (List.mem_cons_of_mem e hx))
      rw [← hcast] at ihr
      rw [ihr]
      simp [hf]

/-- An unbounded (`count = 0`), non-quiet run in which every write and
every liveness check succeeds: one report per supplied tick, each
report's `success` mirroring that tick's probe outcome, with the loop
still alive when the environment is exhausted. -/
theorem runLoop_unbounded (opts : PingOptions) (addr : String)
    (hq : opts.IsQuiet = false) (hc : opts.Count = 0) :
    ∀ (env : List TickEnv) (s : Int),
      (∀ e ∈ env, e.writeOk = true ∧ e.liveOk = true) →
      (runLoop opts addr env s).sent.map PongMessage.Success =
        env.map (fun e => e.probe.isSome) ∧
      (runLoop opts addr env s).outcome = .stillRunning ∧
      (runLoop opts addr env s).probes = env.length := by
  intro env
  induction env with
  | nil => intro s _; simp [runLoop_nil]
  | cons e rest ih =>
    intro s hgood
    have he := hgood e (List.mem_cons_self e rest)
    rw [runLoop_step opts addr e rest s (by rw [hc]; omega)]
    rw [if_neg (by simp [he.1]), if_neg (by simp [he.2]), if_neg (by simp [hq])]
    have ihr := ih (s + 1) (fun x hx => hgood x (List.mem_cons_of_mem e hx))
    exact ⟨by simp [ihr.1], ihr.2.1, by simp [ihr.2.2]⟩

/-- In any non-quiet run, the reports actually written form a contiguous
block of ticks from the start, and the `i`-th written report carries
the sweep-adjusted byte size of 1-based tick number `s + i + 1`. -/
theorem runLoop_bytes (opts : PingOptions) (addr : String)
    (hq : opts.IsQuiet = false) :
    ∀ (env : List TickEnv) (s : Int),
      (runLoop opts addr env s).sent.map PongMessage.Bytes =
        (List.range (runLoop opts addr env s).sent.length).map
          (fun (i : Nat) => currentPacketSize opts (s + (i : Int) + 1)) := by
  intro env
  induction env with
  | nil => intro s; simp [runLoop_nil]
  | cons e rest ih =>
    intro s
    by_cases hcond : opts.Count > 0 ∧ s ≥ opts.Count
    · rw [runLoop_break opts addr e rest s hcond]
      simp
    · rw [runLoop_step opts addr e rest s hcond]
      by_cases hw : e.writeOk = false
      · rw [if_pos (by simp [hq, hw])]
        simp
      · rw [if_neg (by simp [hq, hw])]
        by_cases hl : opts.IsFlood = false ∧ e.liveOk = false
        · rw [if_pos (by simp [hl.1, hl.2]), if_neg (by simp [hq])]
          have h1 : List.range 1 = [0] := rfl
          simp [h1]
        · rw [if_neg (by simpa using hl), if_neg (by simp [hq])]
          have ihr := ih (s + 1)
          simp only [List.singleton_append, List.map_cons, stepPong_Bytes,
            List.length_cons, List.range_succ_eq_map, List.map_map,
            List.cons.injEq, ihr]
          refine ⟨by simp, ?_⟩
          exact (List.map_congr_left (fun a _ => by
            simp only [Function.comp_apply]
            congr 1
            push_cast
            ring)).symm

/-- Successfully resolved options still pass validation (the flood
override only rewrites the interval to 1, which is in range). -/
theorem resolve_ok_validate (msg : PingMessage) (opts : PingOptions)
    (h : resolvePingOptions msg = Except.ok opts) :
    validatePingOptions opts = Except.ok () := by
  simp only [resolvePingOptions] at h
  rcases hv : validatePingOptions (mergeDefaults msg) with e | u
  · rw [hv] at h; cases h
  · rw [hv] at h
    simp only [Except.ok.injEq] at h
    subst h
    cases u
    by_cases hfl : (mergeDefaults msg).IsFlood
    · rw [if_pos hfl]
      obtain ⟨h1, _, h3, h4, h5, h6, h7, h8⟩ := (validate_ok_iff _).1 hv
      exact (validate_ok_iff _).2 ⟨h1, by norm_num, h3, h4, h5, h6, h7, h8⟩
    · rw [if_neg hfl]
      exact hv

/-! ## Claims about the session loop -/

/-- C1: a session with resolved count `c > 0` and `quiet = false` whose
probes, writes and liveness checks all succeed writes exactly `c`
reports, their sequence fields being `0, 1, …, c-1` in order with no
gaps or repeats, and then terminates with count exhaustion on the next
ticker firing without attempting a `(c+1)`-th measurement. -/
theorem C1_count_exhaustion :
    ∀ (msg : PingMessage) (opts : PingOptions) (env : List TickEnv) (c : Nat),
      resolvePingOptions msg = Except.ok opts →
      opts.Count = (c : Int) → 0 < c → opts.IsQuiet = false →
      env.length = c + 1 →
      (∀ e ∈ env, e.probe.isSome = true ∧ e.writeOk = true ∧ e.liveOk = true) →
      (pingSession (some msg) env).sent.length = c ∧
      (pingSession (some msg) env).sent.map PongMessage.Sequence =
        (List.range c).map (fun (i : Nat) => (i : Int)) ∧
      (pingSession (some msg) env).outcome = .countExhausted ∧
      (pingSession (some msg) env).probes = c := by
  intro msg opts env c hres hc hpos hq hlen hgood
  have hsess : pingSession (some msg) env =
      runLoop opts (formatAddress msg.Address) env 0 := by
    simp [pingSession, hres]
  obtain ⟨h1, h2, h3⟩ := runLoop_allGood opts (formatAddress msg.Address) hq
    c 0 env (by rw [hc]; push_cast; ring) (by omega) hlen hgood
  simp only [Nat.cast_zero] at h1 h2 h3
  rw [hsess]
  have h3' : (runLoop opts (formatAddress msg.Address) env 0).sent.map
      PongMessage.Sequence = (List.range c).map (fun (i : Nat) => (i : Int)) := by
    rw [h3]
    exact List.map_congr_left (fun a _ => by simp)
  refine ⟨?_, h3', h1, h2⟩
  have := congrArg List.length h3'
  simpa using this

/-- Concrete witness inputs: a count-3 request, and four all-good ticks. -/
def msgCount3 : PingMessage := { Address := "example.com", Count := some 3 }

def optsCount3 : PingOptions := { defaultResolvedOptions with Count := 3 }

def envGood4 : List TickEnv :=
  [⟨0, some 5, true, true⟩, ⟨1, some 6, true, true⟩,
   ⟨2, some 7, true, true⟩, ⟨3, some 8, true, true⟩]

/-- C1 witness: `count = 3` with four all-good ticks available. -/
theorem C1_count_exhaustion_witness :
    (pingSession (some msgCount3) envGood4).sent.length = 3 ∧
    (pingSession (some msgCount3) envGood4).sent.map PongMessage.Sequence =
      (List.range 3).map (fun (i : Nat) => (i : Int)) ∧
    (pingSession (some msgCount3) envGood4).outcome = .countExhausted ∧
    (pingSession (some msgCount3) envGood4).probes = 3 :=
  C1_count_exhaustion msgCount3 optsCount3 envGood4 3
    rfl rfl (by decide) rfl rfl (by decide)

/-- C2: in a non-quiet session the `i`-th report written (tick number
`i + 1`, 1-based) carries byte size `packetSize` when sweeping is off
(`sweepMax ≤ 0`), and `sweepMin + (i * sweepIncrement) % (sweepMax -
sweepMin + 1)` when sweeping is on — the mathematical-mod closed form of
the spec at `sequence - 1 = i`, a ramp depending only on the tick
number. -/
theorem C2_sweep_bytes :
    ∀ (msg : PingMessage) (opts : PingOptions) (env : List TickEnv),
      resolvePingOptions msg = Except.ok opts →
      opts.IsQuiet = false →
      (pingSession (some msg) env).sent.map PongMessage.Bytes =
        (List.range (pingSession (some msg) env).sent.length).map
          (fun (i : Nat) =>
            if opts.SweepMaxSize > 0 then
              opts.SweepMinSize + ((i : Int) * opts.SweepIncrSize) %
                (opts.SweepMaxSize - opts.SweepMinSize + 1)
            else
              opts.PacketSize) := by
  intro msg opts env hres hq
  have hsess : pingSession (some msg) env =
      runLoop opts (formatAddress msg.Address) env 0 := by
    simp [pingSession, hres]
  have hval := (validate_ok_iff opts).1 (resolve_ok_validate msg opts hres)
  rw [hsess, runLoop_bytes opts (formatAddress msg.Address) hq env 0]
  refine List.map_congr_left (fun i _ => ?_)
  rw [currentPacketSize]
  by_cases hmax : opts.SweepMaxSize > 0
  · rw [if_pos hmax, if_pos hmax]
    congr 1
    have harg : (0 + (i : Int) + 1 - 1) = (i : Int) := by ring
    rw [harg]
    have hincr : 0 < opts.SweepIncrSize := (hval.2.2.2.2.1 hmax).2
    have hmin : opts.SweepMinSize < opts.SweepMaxSize := (hval.2.2.2.2.1 hmax).1
    exact Int.tmod_eq_emod
      (mul_nonneg (Int.natCast_nonneg i) hincr.le) (by omega)
  · rw [if_neg hmax, if_neg hmax]

/-- Concrete witness inputs: the spec's sweep example request, its
resolved options, and five all-good ticks. -/
def msgSweepW : PingMessage :=
  { Address := "x", SweepMinSize := some 10, SweepMaxSize := some 20,
    SweepIncrSize := some 5 }

def optsSweepW : PingOptions :=
  { defaultResolvedOptions with
    SweepMinSize := 10, SweepMaxSize := 20, SweepIncrSize := 5 }

def envGood5 : List TickEnv :=
  [⟨0, some 1, true, true⟩, ⟨1, some 1, true, true⟩, ⟨2, some 1, true, true⟩,
   ⟨3, some 1, true, true⟩, ⟨4, some 1, true, true⟩]

/-- C2 witness: the spec's example `sweepMin=10, sweepMax=20,
sweepIncrement=5` over five ticks. -/
theorem C2_sweep_bytes_witness :
    (pingSession (some msgSweepW) envGood5).sent.map PongMessage.Bytes =
      (List.range (pingSession (some msgSweepW) envGood5).sent.length).map
        (fun (i : Nat) =>
          if optsSweepW.SweepMaxSize > 0 then
            optsSweepW.SweepMinSize + ((i : Int) * optsSweepW.SweepIncrSize) %
              (optsSweepW.SweepMaxSize - optsSweepW.SweepMinSize + 1)
          else
            optsSweepW.PacketSize) :=
  C2_sweep_bytes msgSweepW optsSweepW envGood5 (by rfl) rfl

/-- C6: in an unbounded non-quiet session in which every write and
liveness check succeeds, a probe failure on tick `k` produces the
`k`-th report with `success = false` instead of terminating, every
report's `success` mirroring its own tick's probe outcome, and the loop
is still running after all supplied ticks — a measurement failure never
ends the loop. -/
theorem C6_failure_isolation :
    ∀ (msg : PingMessage) (opts : PingOptions) (env : List TickEnv),
      resolvePingOptions msg = Except.ok opts →
      opts.Count = 0 → opts.IsQuiet = false →
      (∀ e ∈ env, e.writeOk = true ∧ e.liveOk = true) →
      (pingSession (some msg) env).sent.map PongMessage.Success =
        env.map (fun e => e.probe.isSome) ∧
      (pingSession (some msg) env).outcome = .stillRunning ∧
      (pingSession (some msg) env).probes = env.length := by
  intro msg opts env hres hc hq hgood
  have hsess : pingSession (some msg) env =
      runLoop opts (formatAddress msg.Address) env 0 := by
    simp [pingSession, hres]
  rw [hsess]
  exact runLoop_unbounded opts (formatAddress msg.Address) hq hc env 0 hgood

/-- Concrete witness inputs: three ticks, the middle probe failing. -/
def envMidFail : List TickEnv :=
  [⟨0, some 1, true, true⟩, ⟨1, none, true, true⟩, ⟨2, some 2, true, true⟩]

def msgPlain : PingMessage := { Address := "x" }

/-- C6 witness: three ticks, the middle probe failing. -/
theorem C6_failure_isolation_witness :
    (pingSession (some msgPlain) envMidFail).sent.map PongMessage.Success =
      envMidFail.map (fun e => e.probe.isSome) ∧
    (pingSession (some msgPlain) envMidFail).outcome = .stillRunning ∧
    (pingSession (some msgPlain) envMidFail).probes = envMidFail.length :=
  C6_failure_isolation msgPlain defaultResolvedOptions envMidFail
    rfl rfl rfl (by decide)

/-- C7: a quiet non-flood session with resolved count `c > 0` and all
liveness checks succeeding writes zero reports regardless of each
measurement's outcome or the write channel's state, yet still performs
all `c` measurements and all `c` per-tick liveness checks before
terminating count-exhausted. -/
theorem C7_quiet_mode :
    ∀ (msg : PingMessage) (opts : PingOptions) (env : List TickEnv) (c : Nat),
      resolvePingOptions msg = Except.ok opts →
      opts.Count = (c : Int) → 0 < c →
      opts.IsQuiet = true → opts.IsFlood = false →
      env.length = c + 1 → (∀ e ∈ env, e.liveOk = true) →
      pingSession (some msg) env = ⟨[], .countExhausted, c, c⟩ := by
  intro msg opts env c hres hc hpos hq hf hlen hlive
  have hsess : pingSession (some msg) env =
      runLoop opts (formatAddress msg.Address) env 0 := by
    simp [pingSession, hres]
  rw [hsess]
  have h := runLoop_quiet opts (formatAddress msg.Address) hq hf c 0 env
    (by rw [hc]; push_cast; ring) (by omega) hlen hlive
  simpa using h

/-- Concrete witness inputs: a quiet count-2 request and three live
ticks with failing probes and a dead write channel. -/
def msgQuiet2 : PingMessage :=
  { Address := "x", Count := some 2, Quiet := some true }

def optsQuiet2 : PingOptions :=
  { defaultResolvedOptions with Count := 2, IsQuiet := true }

def envQuiet3 : List TickEnv :=
  [⟨0, none, false, true⟩, ⟨1, some 3, false, true⟩, ⟨2, none, true, true⟩]

/-- C7 witness: `count = 2`, quiet, with failing probes and a dead write
channel — still two measurements and two liveness checks, no report. -/
theorem C7_quiet_mode_witness :
    pingSession (some msgQuiet2) envQuiet3 = ⟨[], .countExhausted, 2, 2⟩ :=
  C7_quiet_mode msgQuiet2 optsQuiet2 envQuiet3 2
    rfl rfl (by decide) rfl rfl rfl (by decide)

/-! ## Validation order (C5) -/

/-- The spec's fixed-order validation rules as (violated?, message)
pairs: count ≥ 0, interval ≥ 0, 1 ≤ TTL ≤ 255, packetSize ≥ 0, sweep
constraints when sweepMax > 0, timeout > 0, waitTime > 0,
0 ≤ TOS ≤ 255. -/
def pingRules (o : PingOptions) : List (Bool × String) :=
  [ (decide (o.Count < 0), "count cannot be negative"),
    (decide (o.Wait < 0), "wait interval cannot be negative"),
    (decide (o.TTL ≤ 0 ∨ o.TTL > 255), "TTL must be between 1 and 255"),
    (decide (o.PacketSize < 0), "packet size cannot be negative"),
    (decide (o.SweepMaxSize > 0 ∧ o.SweepMinSize ≥ o.SweepMaxSize),
      "sweep min size must be less than max size"),
    (decide (o.SweepMaxSize > 0 ∧ o.SweepIncrSize ≤ 0),
      "sweep increment size must be positive"),
    (decide (o.Timeout ≤ 0), "timeout must be positive"),
    (decide (o.WaitTime ≤ 0), "wait time must be positive"),
    (decide (o.TOS < 0 ∨ o.TOS > 255), "TOS must be between 0 and 255") ]

/-- The validator reports exactly the first violated rule, in the fixed
spec order. -/
theorem validate_error_of_find (o : PingOptions) (p : Bool × String)
    (h : (pingRules o).find? (fun q => q.1) = some p) :
    validatePingOptions o = Except.error p.2 := by
  unfold pingRules at h
  unfold validatePingOptions
  by_cases h1 : o.Count < 0
  · rw [List.find?_cons_of_pos _ (by simpa using h1)] at h
    injection h with h
    rw [if_pos h1, ← h]
  rw [List.find?_cons_of_neg _ (by simpa using h1)] at h
  rw [if_neg h1]
  by_cases h2 : o.Wait < 0
  · rw [List.find?_cons_of_pos _ (by simpa using h2)] at h
    injection h with h
    rw [if_pos h2, ← h]
  rw [List.find?_cons_of_neg _ (by simpa using h2)] at h
  rw [if_neg h2]
  by_cases h3 : o.TTL ≤ 0 ∨ o.TTL > 255
  · rw [List.find?_cons_of_pos _ (by simpa using h3)] at h
    injection h with h
    rw [if_pos h3, ← h]
  rw [List.find?_cons_of_neg _ (by simpa using h3)] at h
  rw [if_neg h3]
  by_cases h4 : o.PacketSize < 0
  · rw [List.find?_cons_of_pos _ (by simpa using h4)] at h
    injection h with h
    rw [if_pos h4, ← h]
  rw [List.find?_cons_of_neg _ (by simpa using h4)] at h
  rw [if_neg h4]
  by_cases h5 : o.SweepMaxSize > 0 ∧ o.SweepMinSize ≥ o.SweepMaxSize
  · rw [List.find?_cons_of_pos _ (by simpa using h5)] at h
    injection h with h
    rw [if_pos h5, ← h]
  rw [List.find?_cons_of_neg _ (by simpa using h5)] at h
  rw [if_neg h5]
  by_cases h6 : o.SweepMaxSize > 0 ∧ o.SweepIncrSize ≤ 0
  · rw [List.find?_cons_of_pos _ (by simpa using h6)] at h
    injection h with h
    rw [if_pos h6, ← h]
  rw [List.find?_cons_of_neg _ (by simpa using h6)] at h
  rw [if_neg h6]
  by_cases h7 : o.Timeout ≤ 0
  · rw [List.find?_cons_of_pos _ (by simpa using h7)] at h
    injection h with h
    rw [if_pos h7, ← h]
  rw [List.find?_cons_of_neg _ (by simpa using h7)] at h
  rw [if_neg h7]
  by_cases h8 : o.WaitTime ≤ 0
  · rw [List.find?_cons_of_pos _ (by simpa using h8)] at h
    injection h with h
    rw [if_pos h8, ← h]
  rw [List.find?_cons_of_neg _ (by simpa using h8)] at h
  rw [if_neg h8]
  by_cases h9 : o.TOS < 0 ∨ o.TOS > 255
  · rw [List.find?_cons_of_pos _ (by simpa using h9)] at h
    injection h with h
    rw [if_pos h9, ← h]
  rw [List.find?_cons_of_neg _ (by simpa using h9)] at h
  cases h

/-- C5: whenever the merged option set violates some validation rule,
resolution fails with the error of the *first* failing rule in the
fixed spec order (count, interval, TTL, packetSize, sweep, timeout,
waitTime, TOS), wrapped as an invalid-option failure, and the session
uses no partially-applied option set: it terminates silently with no
report, no measurement and no liveness check. -/
theorem C5_first_failing_rule :
    ∀ (msg : PingMessage) (p : Bool × String) (env : List TickEnv),
      (pingRules (mergeDefaults msg)).find? (fun q => q.1) = some p →
      resolvePingOptions msg = Except.error ("invalid ping options: " ++ p.2) ∧
      pingSession (some msg) env = ⟨[], .invalidOption, 0, 0⟩ := by
  intro msg p env h
  have hval := validate_error_of_find (mergeDefaults msg) p h
  have hres : resolvePingOptions msg =
      Except.error ("invalid ping options: " ++ p.2) := by
    simp only [resolvePingOptions]
    rw [hval]
  exact ⟨hres, by simp [pingSession, hres]⟩

/-- Concrete witness input: `timeToLive = 256` (out of range above). -/
def msgBigTTL : PingMessage := { Address := "a", TTL := some 256 }

/-- C5 witness: `timeToLive = 256` fails with the TTL rule's error and
the session emits nothing. -/
theorem C5_first_failing_rule_witness :
    resolvePingOptions msgBigTTL =
      Except.error ("invalid ping options: " ++ "TTL must be between 1 and 255") ∧
    pingSession (some msgBigTTL) [] = ⟨[], .invalidOption, 0, 0⟩ :=
  C5_first_failing_rule msgBigTTL
    (true, "TTL must be between 1 and 255") [] (by rfl)

/-! ## Exact override resolution (C4) -/

/-- Concrete counterexample input for C4 as stated: a fully valid
message supplying `flood = true` and an explicit interval 2. -/
def msgFloodInterval : PingMessage :=
  { Address := "example.com", Flood := some true, Wait := some 2 }

/-- Its resolved options: the flood override forces the interval to 1. -/
def optsFloodInterval : PingOptions :=
  { defaultResolvedOptions with IsFlood := true, Wait := 1, Count := 0 }

/-- C4 counterexample: every present optional field of
`msgFloodInterval` carries a valid in-range value (the whole merged set
passes validation) and resolution succeeds, yet the resolved interval
is 1, not the supplied override 2 — so "every field of the resolved
options equals the supplied override exactly" is false as stated. -/
theorem C4_exact_overrides_counterexample :
    validatePingOptions (mergeDefaults msgFloodInterval) = Except.ok () ∧
    msgFloodInterval.Wait = some 2 ∧
    resolvePingOptions msgFloodInterval = Except.ok optsFloodInterval ∧
    optsFloodInterval.Wait = 1 :=
  ⟨rfl, rfl, by rfl, rfl⟩

/-- The amended C4 field-agreement property: every present optional
field of the message is adopted exactly in the resolved options, except
the interval, which is adopted exactly only when flood mode is off and
is forced to 1 when flood mode is on. -/
def OverridesRespected (msg : PingMessage) (opts : PingOptions) : Prop :=
  (∀ v, msg.Count = some v → opts.Count = v) ∧
  (∀ v, msg.TTL = some v → opts.TTL = v) ∧
  (∀ v, msg.PacketSize = some v → opts.PacketSize = v) ∧
  (∀ v, msg.Timeout = some v → opts.Timeout = v) ∧
  (∀ v, msg.WaitTime = some v → opts.WaitTime = v) ∧
  (∀ v, msg.TOS = some v → opts.TOS = v) ∧
  (∀ v, msg.Preload = some v → opts.Preload = v) ∧
  (∀ v, msg.SweepMinSize = some v → opts.SweepMinSize = v) ∧
  (∀ v, msg.SweepMaxSize = some v → opts.SweepMaxSize = v) ∧
  (∀ v, msg.SweepIncrSize = some v → opts.SweepIncrSize = v) ∧
  (∀ v, msg.SourceAddr = some v → opts.SourceAddr = v) ∧
  (∀ v, msg.Pattern = some v → opts.Pattern = v) ∧
  (∀ v, msg.Mask = some v → opts.Mask = v) ∧
  (∀ v, msg.Adaptive = some v → opts.IsAdaptive = v) ∧
  (∀ v, msg.Audible = some v → opts.IsAudible = v) ∧
  (∀ v, msg.Debug = some v → opts.IsDebug = v) ∧
  (∀ v, msg.Flood = some v → opts.IsFlood = v) ∧
  (∀ v, msg.Numeric = some v → opts.IsNumeric = v) ∧
  (∀ v, msg.Quiet = some v → opts.IsQuiet = v) ∧
  (∀ v, msg.Timestamp = some v → opts.HasTimestamp = v) ∧
  (∀ v, msg.Verbose = some v → opts.IsVerbose = v) ∧
  (opts.IsFlood = false → ∀ v, msg.Wait = some v → opts.Wait = v) ∧
  (opts.IsFlood = true → opts.Wait = 1)

/-- C4 (amended): for every configuration message whose present optional
fields all carry valid in-range values (the merged option set passes
validation), resolution succeeds, and every field of the resolved
options equals the supplied override exactly — except the interval,
which is forced to 1 whenever flood mode is enabled. -/
theorem C4_amended_overrides :
    ∀ msg : PingMessage,
      validatePingOptions (mergeDefaults msg) = Except.ok () →
      ∃ opts : PingOptions,
        resolvePingOptions msg = Except.ok opts ∧ OverridesRespected msg opts := by
  intro msg hval
  refine ⟨if (mergeDefaults msg).IsFlood then { mergeDefaults msg with Wait := 1 }
    else mergeDefaults msg, ?_, ?_⟩
  · simp only [resolvePingOptions]
    rw [hval]
  · unfold OverridesRespected
    refine ⟨?_, ?_, ?_, ?_, ?_, ?_, ?_, ?_, ?_, ?_, ?_, ?_, ?_, ?_, ?_, ?_,
      ?_, ?_, ?_, ?_, ?_, ?_, ?_⟩ <;> first
    | (intro v hv
       by_cases hf : (mergeDefaults msg).IsFlood
       · rw [if_pos hf]
         simp [mergeDefaults, getOrDefault, hv]
       · rw [if_neg hf]
         simp [mergeDefaults, getOrDefault, hv])
    | (intro hflood v hv
       by_cases hf : (mergeDefaults msg).IsFlood
       · rw [if_pos hf] at hflood
         simp [hf] at hflood
       · rw [if_neg hf]
         simp [mergeDefaults, getOrDefault, hv])
    | (intro hflood
       by_cases hf : (mergeDefaults msg).IsFlood
       · rw [if_pos hf]
       · rw [if_neg hf] at hflood
         exact absurd hflood hf)

/-- Concrete witness input for the amended C4: several overrides
present, flood off. -/
def msgManyFields : PingMessage :=
  { Address := "a", Count := some 4, TTL := some 100, Wait := some 3,
    PacketSize := some 99, Quiet := some true }

/-- C4 witness: a valid message with count, TTL, interval, packet size
and quiet supplied resolves with all of them adopted exactly. -/
theorem C4_amended_overrides_witness :
    ∃ opts : PingOptions,
      resolvePingOptions msgManyFields = Except.ok opts ∧
      OverridesRespected msgManyFields opts :=
  C4_amended_overrides msgManyFields (by rfl)

end NetTools
